import Mathlib

/-!
Verification development for `gerador_de_noticias.py`, a linear content
generation script.  The script is embedded shallowly: Python strings become
`List Char`, the HTTP layer becomes an explicit environment mapping each
attempt index to the response the server would give, fallible code returns
`Except`/`Option`, and all side effects (sleeps, number of requests, the
written output file) are recorded explicitly in the result values.
-/

namespace Noticia

/-- Python string, as a sequence of code points. -/
abbrev PyStr := List Char

/-- Characters removed by Python `str.strip()` (ASCII whitespace). -/
def isPySpace (c : Char) : Bool :=
  c = ' ' || c = '\t' || c = '\n' || c = '\r' || c = '\x0b' || c = '\x0c'

/-- Python `s.strip()`: drop leading and trailing whitespace. -/
def pyStrip (s : PyStr) : PyStr :=
  ((s.dropWhile isPySpace).reverse.dropWhile isPySpace).reverse

/-- Python `s.split(sep)` for a one-character separator: keeps empty pieces,
`"".split(sep) = [""]`. -/
def pySplit (sep : Char) : PyStr → List PyStr
  | [] => [[]]
  | c :: cs =>
    if c = sep then [] :: pySplit sep cs
    else
      match pySplit sep cs with
      | [] => [[c]]
      | h :: t => (c :: h) :: t

/-- Whether `old` occurs as a contiguous substring of `s`. -/
def hasOcc (old : PyStr) : PyStr → Bool
  | [] => old.isEmpty
  | c :: cs => old.isPrefixOf (c :: cs) || hasOcc old cs

/-- Fuel-indexed worker for Python `str.replace`: at each position, if `old`
matches there the replacement is emitted and scanning resumes after the
match, exactly as Python's left-to-right non-overlapping replacement. -/
def replFuel (old new : PyStr) : Nat → PyStr → PyStr
  | 0, s => s
  | _ + 1, [] => []
  | fuel + 1, c :: cs =>
    if old.isPrefixOf (c :: cs) then
      new ++ replFuel old new fuel ((c :: cs).drop old.length)
    else
      c :: replFuel old new fuel cs

/-- Python `s.replace(old, new)` (all occurrences, left to right).  The
script only calls it with a nonempty `old`; for `old = ""` we return `s`
unchanged, a case the script never exercises. -/
def pyReplace (old new s : PyStr) : PyStr :=
  if old = [] then s else replFuel old new s.length s

/-- Standard base64 alphabet, as used by `base64.b64encode`. -/
def b64Alphabet : PyStr :=
  "ABCDEFGHIJKLMNOPQRSTUVWXYZabcdefghijklmnopqrstuvwxyz0123456789+/".toList

/-- Character for a 6-bit group. -/
def b64Char (n : Nat) : Char := b64Alphabet.getD n '='

/-- `base64.b64encode` over a byte list, with `=` padding. -/
def base64Encode : List Nat → PyStr
  | [] => []
  | [a] =>
    [b64Char (a / 4), b64Char (a % 4 * 16), '=', '=']
  | [a, b] =>
    [b64Char (a / 4), b64Char (a % 4 * 16 + b / 16), b64Char (b % 16 * 4), '=']
  | a :: b :: c :: rest =>
    b64Char (a / 4) :: b64Char (a % 4 * 16 + b / 16) ::
      b64Char (b % 16 * 4 + c / 64) :: b64Char (c % 64) :: base64Encode rest

/-- `ARTICLES_TO_GENERATE = 3`. -/
def ARTICLES_TO_GENERATE : Nat := 3

/-- One HTTP response, as observed by the script.  `json_ok` is whether
`response.json()` returns a JSON object (otherwise that call raises);
`estimated_time` is the `estimated_time` field of that object, when present;
`generated_text` is the value of `response.json()[0]['generated_text']`
when that whole access chain succeeds; `content` is the raw body bytes. -/
structure HttpResponse where
  status_code : Nat
  json_ok : Bool
  estimated_time : Option Nat
  generated_text : Option PyStr
  content : List Nat
deriving DecidableEq

/-- Result of `query_api`: a 200 response, `None` after exhausting retries,
or an uncaught exception escaping the function. -/
inductive ApiOutcome where
  | success (r : HttpResponse)
  | failure
  | exn
deriving DecidableEq

/-- A run of `query_api`: its outcome together with the number of HTTP
requests issued and the list of sleep durations performed, in order. -/
structure ApiRun where
  result : ApiOutcome
  requests : Nat
  sleeps : List Nat
deriving DecidableEq

/-- The retry loop of `query_api`, iterating over the remaining attempt
indices (`for i in range(retries)`).  `responses i` is the response the
server gives to the `i`-th request.  On 200 the response is returned; on
503 the body's `estimated_time` (default `initial_wait`) is slept — with a
non-JSON body `response.json()` raises and the exception escapes; on any
other status `initial_wait` is slept. -/
def query_api_iter (responses : Nat → HttpResponse) (initial_wait : Nat) :
    List Nat → ApiRun
  | [] => ⟨ApiOutcome.failure, 0, []⟩
  | i :: rest =>
    let r := responses i
    if r.status_code = 200 then ⟨ApiOutcome.success r, 1, []⟩
    else if r.status_code = 503 then
      if r.json_ok then
        let w := r.estimated_time.getD initial_wait
        let k := query_api_iter responses initial_wait rest
        ⟨k.result, k.requests + 1, w :: k.sleeps⟩
      else ⟨ApiOutcome.exn, 1, []⟩
    else
      let k := query_api_iter responses initial_wait rest
      ⟨k.result, k.requests + 1, initial_wait :: k.sleeps⟩

/-- `query_api(api_url, payload, retries, initial_wait)`.  The endpoint and
payload only select which server is hit, which the response environment
abstracts; the defaults at every call site are `retries=3`,
`initial_wait=10`. -/
def query_api (responses : Nat → HttpResponse) (retries initial_wait : Nat) :
    ApiRun :=
  query_api_iter responses initial_wait (List.range retries)

/-- The label `"TITULO:"`. -/
def tituloLbl : PyStr := ['T', 'I', 'T', 'U', 'L', 'O', ':']

/-- The label `"CONTEUDO:"`. -/
def conteudoLbl : PyStr := ['C', 'O', 'N', 'T', 'E', 'U', 'D', 'O', ':']

/-- The label `"METADESCRIPTION:"`. -/
def metaLbl : PyStr :=
  ['M', 'E', 'T', 'A', 'D', 'E', 'S', 'C', 'R', 'I', 'P', 'T', 'I', 'O', 'N', ':']

/-- The value of `current_key` in the article parser. -/
inductive FieldKey where
  | title
  | content
  | meta
deriving DecidableEq

/-- The `content_dict` built by the article parser, plus the `image_url`
key added later by `main`.  `none` models an absent dictionary key. -/
structure ArticleDict where
  title : Option PyStr
  content : Option PyStr
  meta : Option PyStr
  image_url : Option PyStr
deriving DecidableEq

/-- The empty Python dict `{}`. -/
def emptyDict : ArticleDict := ⟨none, none, none, none⟩

/-- Python truthiness of the dict: nonempty. -/
def dictNonEmpty (d : ArticleDict) : Bool :=
  d.title.isSome || d.content.isSome || d.meta.isSome || d.image_url.isSome

/-- One iteration of the `for line in lines` loop in
`generate_article_content`: a label line replaces every occurrence of its
label, strips, and becomes the new current field; otherwise a non-blank
line is appended (with a newline) to `content`, but only when the current
field is `content`. -/
def parseStep (st : ArticleDict × Option FieldKey) (line : PyStr) :
    ArticleDict × Option FieldKey :=
  if tituloLbl.isPrefixOf line then
    ({ st.1 with title := some (pyStrip (pyReplace tituloLbl [] line)) },
      some FieldKey.title)
  else if conteudoLbl.isPrefixOf line then
    ({ st.1 with content := some (pyStrip (pyReplace conteudoLbl [] line)) },
      some FieldKey.content)
  else if metaLbl.isPrefixOf line then
    ({ st.1 with meta := some (pyStrip (pyReplace metaLbl [] line)) },
      some FieldKey.meta)
  else if st.2 = some FieldKey.content ∧ pyStrip line ≠ [] then
    ({ st.1 with content := some ((st.1.content.getD []) ++ '\n' :: pyStrip line) },
      st.2)
  else st

/-- The whole parsing loop, starting from `content_dict = {}` and
`current_key = None`. -/
def parseLines (lines : List PyStr) : ArticleDict × Option FieldKey :=
  lines.foldl parseStep (emptyDict, none)

/-- The prompt of `get_trending_topics` (an f-string interpolating
`ARTICLES_TO_GENERATE + 2`). -/
def topics_prompt : PyStr :=
  "Liste ".toList ++ (Nat.repr (ARTICLES_TO_GENERATE + 2)).toList ++
  " tópicos de notícias muito populares no Brasil neste momento. Retorne apenas os nomes dos tópicos, separados por ponto e vírgula. Exemplo: Reforma tributária;Novidades do futebol brasileiro;Lançamentos de tecnologia no Brasil".toList

/-- `get_trending_topics()`.  Calls `query_api`; on a 200 response it
strips the echoed prompt and splits the remainder on semicolons, keeping
the stripped nonempty pieces; any failure of the
`response.json()[0]['generated_text']` access chain is caught and turned
into `None`.  An exception raised inside `query_api` itself is not caught
(the call sits outside the `try`) and escapes as `Except.error`. -/
def get_trending_topics (responses : Nat → HttpResponse) :
    Except Unit (Option (List PyStr)) :=
  match (query_api responses 3 10).result with
  | ApiOutcome.exn => Except.error ()
  | ApiOutcome.failure => Except.ok none
  | ApiOutcome.success r =>
    match r.generated_text with
    | none => Except.ok none
    | some txt =>
      let clean := pyStrip (pyReplace topics_prompt [] txt)
      Except.ok (some ((pySplit ';' clean).filterMap fun t =>
        if pyStrip t = [] then none else some (pyStrip t)))

/-- The topic list as the spec describes it: "splitting on semicolons with
each entry trimmed of whitespace and empty entries discarded".  Stated from
the spec's words, to be compared with the list `get_trending_topics`
computes. -/
def specTopicsSplit (clean : PyStr) : List PyStr :=
  ((pySplit ';' clean).map pyStrip).filter fun t => t ≠ []

/-- The prompt of `generate_article_content` (a triple-quoted f-string
interpolating the topic; note the leading newline and the 4-space
indentation of every line, which are part of the literal). -/
def article_prompt (topic : PyStr) : PyStr :=
  "\n    Sua tarefa é escrever um artigo completo sobre o tópico: \"".toList ++
  topic ++
  "\".\n    Você é um jornalista digital brasileiro, com um tom descontraído e envolvente.\n    O artigo deve conter um título de notícia chamativo, o conteúdo com 3 parágrafos, e uma meta description para SEO com no máximo 150 caracteres.\n    Retorne o resultado estritamente no seguinte formato:\n    TITULO: [Seu título aqui]\n    CONTEUDO: [Seu conteúdo aqui, com parágrafos separados por quebra de linha]\n    METADESCRIPTION: [Sua meta description aqui]\n    ".toList

/-- `generate_article_content(topic)`.  On a 200 response: strip the echoed
prompt, split into lines and run the label parser; parse problems inside
the `try` are caught and become `None`; an exception inside `query_api`
escapes uncaught. -/
def generate_article_content (topic : PyStr) (responses : Nat → HttpResponse) :
    Except Unit (Option ArticleDict) :=
  match (query_api responses 3 10).result with
  | ApiOutcome.exn => Except.error ()
  | ApiOutcome.failure => Except.ok none
  | ApiOutcome.success r =>
    match r.generated_text with
    | none => Except.ok none
    | some txt =>
      let text_result := pyStrip (pyReplace (article_prompt topic) [] txt)
      Except.ok (some (parseLines (pySplit '\n' (pyStrip text_result))).1)

/-- The fixed placeholder image URL. -/
def placeholder_url : PyStr :=
  "https://placehold.co/600x400/3498db/ffffff?text=Imagem+Indisponível".toList

/-- Prefix of the data URI built from the raw image bytes. -/
def dataUriPrefix : PyStr := "data:image/png;base64,".toList

/-- `generate_article_image(prompt)`.  The full prompt built from the
argument only shapes the request payload, which the response environment
abstracts.  On a 200 response the raw body is base64-encoded into a data
URI; on `None` from the retry helper the placeholder URL is substituted;
an exception inside `query_api` escapes uncaught. -/
def generate_article_image (prompt : PyStr) (responses : Nat → HttpResponse) :
    Except Unit PyStr :=
  match (query_api responses 3 10).result with
  | ApiOutcome.exn => Except.error ()
  | ApiOutcome.failure => Except.ok placeholder_url
  | ApiOutcome.success r =>
    Except.ok (dataUriPrefix ++ base64Encode r.content)

/-- f-string rendering of `article.get(key)`: Python renders the `None`
of a missing key as the text `None`. -/
def pyGetStr (o : Option PyStr) : PyStr :=
  match o with
  | some s => s
  | none => "None".toList

/-- The `content_html` computed for one article: split the `content` value
(default `""`) on newlines, drop blank pieces, wrap each stripped piece in
a paragraph tag. -/
def renderParagraphs (content : PyStr) : PyStr :=
  ((pySplit '\n' content).filterMap fun p =>
    if pyStrip p = [] then none
    else some ("<p class=\"mb-4\">".toList ++ pyStrip p ++ "</p>".toList)).flatten

/-- The per-article HTML fragment appended to `articles_html` (the
triple-quoted f-string of `main`, with its literal newlines and
indentation). -/
def renderFrag (a : ArticleDict) : PyStr :=
  "\n        <article class=\"article-card bg-white rounded-lg shadow-lg overflow-hidden flex flex-col\">\n            <img src=\"".toList ++
  pyGetStr a.image_url ++
  "\" alt=\"".toList ++ a.title.getD "Artigo sem título".toList ++
  "\" class=\"w-full h-48 object-cover\">\n            <div class=\"p-6 flex flex-col flex-grow\">\n                <h2 class=\"text-2xl font-bold mb-2\">".toList ++
  pyGetStr a.title ++
  "</h2>\n                <div class=\"text-gray-700 leading-relaxed flex-grow\">".toList ++
  renderParagraphs (a.content.getD []) ++
  "</div>\n                <meta name=\"description\" content=\"".toList ++
  a.meta.getD [] ++
  "\">\n            </div>\n        </article>\n        ".toList

/-- The placeholder marker replaced in the template. -/
def PLACEHOLDER : PyStr := "<!-- PLACEHOLDER_ARTICLES -->".toList

/-- The outside world as `main` sees it: the response environments of the
topics call and of the per-iteration content and image calls, and the
template file (`none` models `FileNotFoundError`). -/
structure Env where
  topicsResp : Nat → HttpResponse
  contentResp : Nat → Nat → HttpResponse
  imageResp : Nat → Nat → HttpResponse
  template : Option PyStr

/-- What a run of `main` leaves behind: the final `articles_data` and the
output file contents, `none` when no file was written. -/
structure MainResult where
  articles : List ArticleDict
  written : Option PyStr
deriving DecidableEq

/-- The `for topic in topics[:ARTICLES_TO_GENERATE]` loop of `main`,
iteration index `i` selecting the response environments of that iteration.
An article is kept only when the returned dict is truthy and has a
`title` key; then the image is generated from the title and the dict,
extended with `image_url`, is appended. -/
def buildArticles (env : Env) : List PyStr → Nat → Except Unit (List ArticleDict)
  | [], _ => Except.ok []
  | topic :: rest, i =>
    match generate_article_content topic (env.contentResp i) with
    | Except.error e => Except.error e
    | Except.ok none => buildArticles env rest (i + 1)
    | Except.ok (some d) =>
      if dictNonEmpty d then
        match d.title with
        | some t =>
          match generate_article_image t (env.imageResp i) with
          | Except.error e => Except.error e
          | Except.ok url =>
            match buildArticles env rest (i + 1) with
            | Except.error e => Except.error e
            | Except.ok tail => Except.ok ({ d with image_url := some url } :: tail)
        | none => buildArticles env rest (i + 1)
      else buildArticles env rest (i + 1)

/-- `main()`.  Early return with no articles and no file when topics are
missing or empty; otherwise build up to `ARTICLES_TO_GENERATE` articles;
return without writing when none survived or when the template file is
missing; otherwise write the template with the placeholder replaced by the
concatenated fragments.  `Except.error` is an uncaught exception aborting
the run (no file written). -/
def mainRun (env : Env) : Except Unit MainResult :=
  match get_trending_topics env.topicsResp with
  | Except.error e => Except.error e
  | Except.ok none => Except.ok ⟨[], none⟩
  | Except.ok (some topics) =>
    if topics = [] then Except.ok ⟨[], none⟩
    else
      match buildArticles env (topics.take ARTICLES_TO_GENERATE) 0 with
      | Except.error e => Except.error e
      | Except.ok articles =>
        if articles = [] then Except.ok ⟨articles, none⟩
        else
          match env.template with
          | none => Except.ok ⟨articles, none⟩
          | some tmpl =>
            let articles_html := (articles.map renderFrag).flatten
            Except.ok ⟨articles, some (pyReplace PLACEHOLDER articles_html tmpl)⟩

/-- Output file contents of a run, `none` when the run crashed or wrote
nothing. -/
def writtenOf (r : Except Unit MainResult) : Option PyStr :=
  match r with
  | Except.error _ => none
  | Except.ok m => m.written

/-- `articles_data` of a run, empty when the run crashed. -/
def articlesOf (r : Except Unit MainResult) : List ArticleDict :=
  match r with
  | Except.error _ => []
  | Except.ok m => m.articles

/-- A 503 response whose body is not valid JSON: `response.json()` raises. -/
def resp503BadBody : HttpResponse := ⟨503, false, none, none, []⟩

/-- A 503 response with a JSON body carrying `estimated_time = 7`. -/
def resp503Est7 : HttpResponse := ⟨503, true, some 7, none, []⟩

/-- A plain 404 error response. -/
def resp404 : HttpResponse := ⟨404, true, none, none, []⟩

/-- A 200 response whose generated text is `"A;B;C"`. -/
def respTopicsABC : HttpResponse := ⟨200, true, none, some "A;B;C".toList, []⟩

/-- A 200 response with a well-formed three-label article text. -/
def respArticleFull : HttpResponse :=
  ⟨200, true, none, some "TITULO: T1\nCONTEUDO: C1\nMETADESCRIPTION: M1".toList, []⟩

/-- A 200 response whose generated text carries only a `TITULO:` line. -/
def respTitleOnly : HttpResponse := ⟨200, true, none, some "TITULO: A".toList, []⟩

/-- A 200 image response with a three-byte body. -/
def respImageBytes : HttpResponse := ⟨200, true, none, none, [77, 97, 110]⟩

/-- Environment for the C2 counterexample: topics arrive, every article
text has only a title, image generation falls back to the placeholder,
and there is no template file. -/
def envTitleOnly : Env :=
  ⟨fun _ => respTopicsABC, fun _ _ => respTitleOnly, fun _ _ => resp404, none⟩

/-- Environment for the C8 witness: same responses, no template file. -/
def envNoTemplate : Env :=
  ⟨fun _ => respTopicsABC, fun _ _ => respArticleFull, fun _ _ => resp404, none⟩

/-- A tiny template containing just the placeholder marker. -/
def tmplSmall : PyStr :=
  "<html><!-- PLACEHOLDER_ARTICLES --></html>".toList

/-- Fully successful environment for the C3 witness. -/
def envHappy : Env :=
  ⟨fun _ => respTopicsABC, fun _ _ => respArticleFull, fun _ _ => respImageBytes,
    some tmplSmall⟩

/-- Environment for the C10 witness conjunct: accepted articles carry a
title but no content or meta. -/
def envC10 : Env :=
  ⟨fun _ => respTopicsABC, fun _ _ => respTitleOnly, fun _ _ => respImageBytes, none⟩

/-- The data URI produced from the three-byte image body `[77, 97, 110]`. -/
def imgSmallUri : PyStr := dataUriPrefix ++ base64Encode [77, 97, 110]

/-- The article `envC10` accepts: a title, an image URL, no content, no
meta. -/
def artC10 : ArticleDict := ⟨some "A".toList, none, none, some imgSmallUri⟩

/-- The dict parsed from `respArticleFull`. -/
def dHappy : ArticleDict :=
  ⟨some "T1".toList, some "C1".toList, some "M1".toList, none⟩

theorem replFuel_nil (old new : PyStr) (f : Nat) : replFuel old new f [] = [] := by
  cases f <;> rfl

theorem replFuel_congr (old new : PyStr) (hold : old ≠ []) :
    ∀ (f₁ : Nat) (s : PyStr) (f₂ : Nat), s.length ≤ f₁ → s.length ≤ f₂ →
      replFuel old new f₁ s = replFuel old new f₂ s := by
  intro f₁
  induction f₁ with
  | zero =>
    intro s f₂ h₁ _
    have hs : s = [] := List.eq_nil_of_length_eq_zero (Nat.le_zero.mp h₁)
    subst hs
    rw [replFuel_nil, replFuel_nil]
  | succ f ih =>
    intro s f₂ h₁ h₂
    cases s with
    | nil => rw [replFuel_nil, replFuel_nil]
    | cons c cs =>
      cases f₂ with
      | zero => simp at h₂
      | succ g =>
        have hlen : 1 ≤ old.length := by
          cases old with
          | nil => exact absurd rfl hold
          | cons o os => simp
        have hcs₁ : cs.length ≤ f := Nat.le_of_succ_le_succ (by simpa using h₁)
        have hcs₂ : cs.length ≤ g := Nat.le_of_succ_le_succ (by simpa using h₂)
        have hdrop : ((c :: cs).drop old.length).length ≤ cs.length := by
          rw [List.length_drop]
          simp only [List.length_cons]
          omega
        show replFuel old new (f + 1) (c :: cs) = replFuel old new (g + 1) (c :: cs)
        by_cases hp : old.isPrefixOf (c :: cs)
        · simp only [replFuel, hp, if_true]
          exact congrArg (new ++ ·)
            (ih _ _ (le_trans hdrop hcs₁) (le_trans hdrop hcs₂))
        · simp only [replFuel, hp, if_false]
          exact congrArg (c :: ·) (ih _ _ hcs₁ hcs₂)

theorem pyReplace_nil (old new : PyStr) : pyReplace old new [] = [] := by
  unfold pyReplace
  split <;> rfl

theorem pyReplace_cons_pos (old new : PyStr) (c : Char) (cs : PyStr)
    (hold : old ≠ []) (hp : old.isPrefixOf (c :: cs) = true) :
    pyReplace old new (c :: cs) =
      new ++ pyReplace old new ((c :: cs).drop old.length) := by
  unfold pyReplace
  rw [if_neg hold, if_neg hold]
  show replFuel old new (cs.length + 1) (c :: cs) = _
  simp only [replFuel, hp, if_true]
  congr 1
  have hlen : 1 ≤ old.length := by
    cases old with
    | nil => exact absurd rfl hold
    | cons o os => simp
  apply replFuel_congr old new hold
  · rw [List.length_drop]
    simp only [List.length_cons]
    omega
  · exact le_refl _

theorem pyReplace_cons_neg (old new : PyStr) (c : Char) (cs : PyStr)
    (hp : old.isPrefixOf (c :: cs) = false) :
    pyReplace old new (c :: cs) = c :: pyReplace old new cs := by
  have hold : old ≠ [] := by
    intro h
    subst h
    simp [List.isPrefixOf] at hp
  unfold pyReplace
  rw [if_neg hold, if_neg hold]
  show replFuel old new (cs.length + 1) (c :: cs) = c :: replFuel old new cs.length cs
  simp [replFuel, hp]

theorem isPrefixOf_append_self (l t : List Char) : l.isPrefixOf (l ++ t) = true := by
  induction l with
  | nil => simp [List.isPrefixOf]
  | cons a as ih => simp [List.isPrefixOf, ih]

theorem pyReplace_append_self (old new rest : PyStr) (hold : old ≠ []) :
    pyReplace old new (old ++ rest) = new ++ pyReplace old new rest := by
  cases old with
  | nil => exact absurd rfl hold
  | cons o os =>
    have hp : (o :: os).isPrefixOf (o :: (os ++ rest)) = true :=
      isPrefixOf_append_self (o :: os) rest
    have hd : (o :: (os ++ rest)).drop (o :: os).length = rest :=
      List.drop_left (o :: os) rest
    calc pyReplace (o :: os) new ((o :: os) ++ rest)
        = new ++ pyReplace (o :: os) new ((o :: (os ++ rest)).drop (o :: os).length) :=
          pyReplace_cons_pos (o :: os) new o (os ++ rest) (by simp) hp
      _ = new ++ pyReplace (o :: os) new rest := by rw [hd]

theorem pyReplace_no_occ (old new : PyStr) :
    ∀ s : PyStr, hasOcc old s = false → pyReplace old new s = s := by
  intro s
  induction s with
  | nil => intro _; exact pyReplace_nil old new
  | cons c cs ih =>
    intro h
    have h' : old.isPrefixOf (c :: cs) = false ∧ hasOcc old cs = false := by
      simpa [hasOcc] using h
    rw [pyReplace_cons_neg old new c cs h'.1, ih h'.2]

theorem mem_replFuel_empty {old : PyStr} {a : Char} :
    ∀ (f : Nat) (s : PyStr), a ∈ replFuel old [] f s → a ∈ s := by
  intro f
  induction f with
  | zero => intro s h; exact h
  | succ f ih =>
    intro s h
    cases s with
    | nil => simpa [replFuel_nil] using h
    | cons c cs =>
      by_cases hp : old.isPrefixOf (c :: cs)
      · have h' : a ∈ replFuel old [] f ((c :: cs).drop old.length) := by
          simpa [replFuel, hp] using h
        exact List.drop_subset _ _ (ih _ h')
      · have h' : a = c ∨ a ∈ replFuel old [] f cs := by
          simpa [replFuel, hp] using h
        cases h' with
        | inl h' => simp [h']
        | inr h' => exact List.mem_cons_of_mem _ (ih _ h')

theorem mem_of_mem_pyReplace_empty {old s : PyStr} {a : Char}
    (h : a ∈ pyReplace old [] s) : a ∈ s := by
  unfold pyReplace at h
  split at h
  · exact h
  · exact mem_replFuel_empty _ _ h

theorem mem_of_mem_pyStrip {s : PyStr} {a : Char} (h : a ∈ pyStrip s) : a ∈ s := by
  unfold pyStrip at h
  rw [List.mem_reverse] at h
  have h1 : a ∈ (s.dropWhile isPySpace).reverse := (List.dropWhile_sublist _).subset h
  rw [List.mem_reverse] at h1
  exact (List.dropWhile_sublist _).subset h1

theorem pySplit_no_sep (sep : Char) :
    ∀ s : PyStr, (∀ c ∈ s, c ≠ sep) → pySplit sep s = [s] := by
  intro s
  induction s with
  | nil => intro _; rfl
  | cons c cs ih =>
    intro h
    have hc : c ≠ sep := h c (by simp)
    have hrest := ih (fun x hx => h x (List.mem_cons_of_mem _ hx))
    simp [pySplit, hc, hrest]

theorem topics_filterMap_eq (l : List PyStr) :
    (l.filterMap fun t => if pyStrip t = [] then none else some (pyStrip t)) =
      ((l.map pyStrip).filter fun t => t ≠ []) := by
  induction l with
  | nil => rfl
  | cons a as ih =>
    by_cases h : pyStrip a = []
    · simp [List.filterMap_cons, List.filter_cons, h, ih]
    · simp [List.filterMap_cons, List.filter_cons, h, ih]

theorem isPrefixOf_cons_head {a : Char} {as l : List Char}
    (h : (a :: as).isPrefixOf l = true) : ∃ t, l = a :: t := by
  cases l with
  | nil => simp [List.isPrefixOf] at h
  | cons b bs =>
    have h' : a = b ∧ as.isPrefixOf bs = true := by
      simpa [List.isPrefixOf] using h
    exact ⟨bs, by rw [h'.1]⟩

theorem titulo_conteudo_conflict {l : PyStr} (h1 : tituloLbl.isPrefixOf l = true)
    (h2 : conteudoLbl.isPrefixOf l = true) : False := by
  obtain ⟨t1, ht1⟩ := isPrefixOf_cons_head
    (show ('T' :: ['I', 'T', 'U', 'L', 'O', ':']).isPrefixOf l = true from h1)
  obtain ⟨t2, ht2⟩ := isPrefixOf_cons_head
    (show ('C' :: ['O', 'N', 'T', 'E', 'U', 'D', 'O', ':']).isPrefixOf l = true from h2)
  rw [ht1] at ht2
  injection ht2 with hc _
  exact absurd hc (by decide)

theorem titulo_meta_conflict {l : PyStr} (h1 : tituloLbl.isPrefixOf l = true)
    (h2 : metaLbl.isPrefixOf l = true) : False := by
  obtain ⟨t1, ht1⟩ := isPrefixOf_cons_head
    (show ('T' :: ['I', 'T', 'U', 'L', 'O', ':']).isPrefixOf l = true from h1)
  obtain ⟨t2, ht2⟩ := isPrefixOf_cons_head
    (show ('M' :: ['E', 'T', 'A', 'D', 'E', 'S', 'C', 'R', 'I', 'P', 'T', 'I', 'O',
      'N', ':']).isPrefixOf l = true from h2)
  rw [ht1] at ht2
  injection ht2 with hc _
  exact absurd hc (by decide)

theorem conteudo_meta_conflict {l : PyStr} (h1 : conteudoLbl.isPrefixOf l = true)
    (h2 : metaLbl.isPrefixOf l = true) : False := by
  obtain ⟨t1, ht1⟩ := isPrefixOf_cons_head
    (show ('C' :: ['O', 'N', 'T', 'E', 'U', 'D', 'O', ':']).isPrefixOf l = true from h1)
  obtain ⟨t2, ht2⟩ := isPrefixOf_cons_head
    (show ('M' :: ['E', 'T', 'A', 'D', 'E', 'S', 'C', 'R', 'I', 'P', 'T', 'I', 'O',
      'N', ':']).isPrefixOf l = true from h2)
  rw [ht1] at ht2
  injection ht2 with hc _
  exact absurd hc (by decide)

theorem parseStep_title_isSome {st : ArticleDict × Option FieldKey} {l : PyStr}
    (h : st.1.title.isSome = true) : ((parseStep st l).1).title.isSome = true := by
  unfold parseStep
  repeat' split
  all_goals simp_all

theorem parseStep_content_isSome {st : ArticleDict × Option FieldKey} {l : PyStr}
    (h : st.1.content.isSome = true) : ((parseStep st l).1).content.isSome = true := by
  unfold parseStep
  repeat' split
  all_goals simp_all

theorem parseStep_meta_isSome {st : ArticleDict × Option FieldKey} {l : PyStr}
    (h : st.1.meta.isSome = true) : ((parseStep st l).1).meta.isSome = true := by
  unfold parseStep
  repeat' split
  all_goals simp_all

theorem foldl_parse_title_isSome :
    ∀ (lines : List PyStr) (st : ArticleDict × Option FieldKey),
      st.1.title.isSome = true → ((lines.foldl parseStep st).1).title.isSome = true := by
  intro lines
  induction lines with
  | nil => intro st h; exact h
  | cons a as ih => intro st h; exact ih _ (parseStep_title_isSome h)

theorem foldl_parse_content_isSome :
    ∀ (lines : List PyStr) (st : ArticleDict × Option FieldKey),
      st.1.content.isSome = true →
      ((lines.foldl parseStep st).1).content.isSome = true := by
  intro lines
  induction lines with
  | nil => intro st h; exact h
  | cons a as ih => intro st h; exact ih _ (parseStep_content_isSome h)

theorem foldl_parse_meta_isSome :
    ∀ (lines : List PyStr) (st : ArticleDict × Option FieldKey),
      st.1.meta.isSome = true → ((lines.foldl parseStep st).1).meta.isSome = true := by
  intro lines
  induction lines with
  | nil => intro st h; exact h
  | cons a as ih => intro st h; exact ih _ (parseStep_meta_isSome h)

theorem parseStep_sets_title {st : ArticleDict × Option FieldKey} {l : PyStr}
    (hp : tituloLbl.isPrefixOf l = true) :
    ((parseStep st l).1).title.isSome = true := by
  unfold parseStep
  simp [hp]

theorem parseStep_sets_content {st : ArticleDict × Option FieldKey} {l : PyStr}
    (hp : conteudoLbl.isPrefixOf l = true) :
    ((parseStep st l).1).content.isSome = true := by
  have ht : tituloLbl.isPrefixOf l = false := by
    by_contra h
    exact titulo_conteudo_conflict (by simpa using h) hp
  unfold parseStep
  simp [ht, hp]

theorem parseStep_sets_meta {st : ArticleDict × Option FieldKey} {l : PyStr}
    (hp : metaLbl.isPrefixOf l = true) :
    ((parseStep st l).1).meta.isSome = true := by
  have ht : tituloLbl.isPrefixOf l = false := by
    by_contra h
    exact titulo_meta_conflict (by simpa using h) hp
  have hc : conteudoLbl.isPrefixOf l = false := by
    by_contra h
    exact conteudo_meta_conflict (by simpa using h) hp
  unfold parseStep
  simp [ht, hc, hp]

theorem foldl_parse_sets_title :
    ∀ (lines : List PyStr) (st : ArticleDict × Option FieldKey),
      (∃ l ∈ lines, tituloLbl.isPrefixOf l = true) →
      ((lines.foldl parseStep st).1).title.isSome = true := by
  intro lines
  induction lines with
  | nil => rintro st ⟨l, hl, _⟩; simp at hl
  | cons a as ih =>
    rintro st ⟨l, hl, hp⟩
    rcases List.mem_cons.mp hl with h | h
    · subst h
      exact foldl_parse_title_isSome as _ (parseStep_sets_title hp)
    · exact ih (parseStep st a) ⟨l, h, hp⟩

theorem foldl_parse_sets_content :
    ∀ (lines : List PyStr) (st : ArticleDict × Option FieldKey),
      (∃ l ∈ lines, conteudoLbl.isPrefixOf l = true) →
      ((lines.foldl parseStep st).1).content.isSome = true := by
  intro lines
  induction lines with
  | nil => rintro st ⟨l, hl, _⟩; simp at hl
  | cons a as ih =>
    rintro st ⟨l, hl, hp⟩
    rcases List.mem_cons.mp hl with h | h
    · subst h
      exact foldl_parse_content_isSome as _ (parseStep_sets_content hp)
    · exact ih (parseStep st a) ⟨l, h, hp⟩

theorem foldl_parse_sets_meta :
    ∀ (lines : List PyStr) (st : ArticleDict × Option FieldKey),
      (∃ l ∈ lines, metaLbl.isPrefixOf l = true) →
      ((lines.foldl parseStep st).1).meta.isSome = true := by
  intro lines
  induction lines with
  | nil => rintro st ⟨l, hl, _⟩; simp at hl
  | cons a as ih =>
    rintro st ⟨l, hl, hp⟩
    rcases List.mem_cons.mp hl with h | h
    · subst h
      exact foldl_parse_meta_isSome as _ (parseStep_sets_meta hp)
    · exact ih (parseStep st a) ⟨l, h, hp⟩

theorem parseStep_content_none {st : ArticleDict × Option FieldKey} {l : PyStr}
    (hl : conteudoLbl.isPrefixOf l = false)
    (hc : st.1.content = none) (hk : st.2 ≠ some FieldKey.content) :
    ((parseStep st l).1).content = none ∧ (parseStep st l).2 ≠ some FieldKey.content := by
  unfold parseStep
  repeat' split
  all_goals simp_all

theorem foldl_parse_content_none :
    ∀ (lines : List PyStr) (st : ArticleDict × Option FieldKey),
      (∀ l ∈ lines, conteudoLbl.isPrefixOf l = false) →
      st.1.content = none → st.2 ≠ some FieldKey.content →
      ((lines.foldl parseStep st).1).content = none := by
  intro lines
  induction lines with
  | nil => intro st _ hc _; exact hc
  | cons a as ih =>
    intro st h hc hk
    have ha := parseStep_content_none (h a (by simp)) hc hk
    exact ih _ (fun l hl => h l (List.mem_cons_of_mem _ hl)) ha.1 ha.2

theorem parseStep_titulo_eq {st : ArticleDict × Option FieldKey} {l : PyStr}
    (hp : tituloLbl.isPrefixOf l = true) :
    parseStep st l =
      ({ st.1 with title := some (pyStrip (pyReplace tituloLbl [] l)) },
        some FieldKey.title) := by
  unfold parseStep
  simp [hp]

theorem parseStep_conteudo_eq {st : ArticleDict × Option FieldKey} {l : PyStr}
    (hp : conteudoLbl.isPrefixOf l = true) :
    parseStep st l =
      ({ st.1 with content := some (pyStrip (pyReplace conteudoLbl [] l)) },
        some FieldKey.content) := by
  have ht : tituloLbl.isPrefixOf l = false := by
    by_contra h
    exact titulo_conteudo_conflict (by simpa using h) hp
  unfold parseStep
  simp [ht, hp]

theorem parseStep_meta_eq {st : ArticleDict × Option FieldKey} {l : PyStr}
    (hp : metaLbl.isPrefixOf l = true) :
    parseStep st l =
      ({ st.1 with meta := some (pyStrip (pyReplace metaLbl [] l)) },
        some FieldKey.meta) := by
  have ht : tituloLbl.isPrefixOf l = false := by
    by_contra h
    exact titulo_meta_conflict (by simpa using h) hp
  have hc : conteudoLbl.isPrefixOf l = false := by
    by_contra h
    exact conteudo_meta_conflict (by simpa using h) hp
  unfold parseStep
  simp [ht, hc, hp]

theorem parseStep_cont_eq {st : ArticleDict × Option FieldKey} {l : PyStr}
    (h1 : tituloLbl.isPrefixOf l = false) (h2 : conteudoLbl.isPrefixOf l = false)
    (h3 : metaLbl.isPrefixOf l = false)
    (hcur : st.2 = some FieldKey.content) (hne : pyStrip l ≠ []) :
    parseStep st l =
      ({ st.1 with content := some ((st.1.content.getD []) ++ '\n' :: pyStrip l) },
        st.2) := by
  unfold parseStep
  simp [h1, h2, h3, hcur, hne]

theorem parseStep_skip_eq {st : ArticleDict × Option FieldKey} {l : PyStr}
    (h1 : tituloLbl.isPrefixOf l = false) (h2 : conteudoLbl.isPrefixOf l = false)
    (h3 : metaLbl.isPrefixOf l = false)
    (h4 : ¬(st.2 = some FieldKey.content ∧ pyStrip l ≠ [])) :
    parseStep st l = st := by
  unfold parseStep
  simp only [h1, h2, h3]
  rw [if_neg (by simp), if_neg (by simp), if_neg (by simp), if_neg h4]

theorem foldl_parse_content_accum :
    ∀ (cs : List PyStr) (st : ArticleDict × Option FieldKey) (acc : PyStr),
      st.2 = some FieldKey.content → st.1.content = some acc →
      (∀ l ∈ cs, tituloLbl.isPrefixOf l = false ∧ conteudoLbl.isPrefixOf l = false ∧
        metaLbl.isPrefixOf l = false ∧ pyStrip l ≠ []) →
      ((cs.foldl parseStep st).1).title = st.1.title ∧
      ((cs.foldl parseStep st).1).meta = st.1.meta ∧
      ((cs.foldl parseStep st).1).image_url = st.1.image_url ∧
      ((cs.foldl parseStep st).1).content =
        some (acc ++ (cs.map fun l => '\n' :: pyStrip l).flatten) ∧
      (cs.foldl parseStep st).2 = some FieldKey.content := by
  intro cs
  induction cs with
  | nil =>
    intro st acc hk hc _
    refine ⟨rfl, rfl, rfl, ?_, hk⟩
    simpa using hc
  | cons a as ih =>
    intro st acc hk hc h
    obtain ⟨ha1, ha2, ha3, ha4⟩ := h a (by simp)
    rw [List.foldl_cons, parseStep_cont_eq ha1 ha2 ha3 hk ha4, hc]
    simp only [Option.getD_some]
    have ihh := ih ({ st.1 with content := some (acc ++ '\n' :: pyStrip a) }, st.2)
      (acc ++ '\n' :: pyStrip a) hk (by simp)
      (fun l hl => h l (List.mem_cons_of_mem _ hl))
    refine ⟨?_, ?_, ?_, ?_, ihh.2.2.2.2⟩
    · rw [ihh.1]
    · rw [ihh.2.1]
    · rw [ihh.2.2.1]
    · rw [ihh.2.2.2.1]
      simp [List.append_assoc]

theorem query_iter_failure (responses : Nat → HttpResponse) (w : Nat) :
    ∀ is : List Nat,
      (∀ i ∈ is, (responses i).status_code ≠ 200) →
      (∀ i ∈ is, (responses i).status_code = 503 → (responses i).json_ok = true) →
      (query_api_iter responses w is).result = ApiOutcome.failure := by
  intro is
  induction is with
  | nil => intro _ _; rfl
  | cons i rest ih =>
    intro h1 h2
    have hi1 := h1 i (by simp)
    have hi2 := h2 i (by simp)
    have hrest := ih (fun j hj => h1 j (List.mem_cons_of_mem _ hj))
      (fun j hj => h2 j (List.mem_cons_of_mem _ hj))
    unfold query_api_iter
    by_cases h503 : (responses i).status_code = 503
    · simp [hi1, h503, hi2 h503, hrest]
    · simp [hi1, h503, hrest]

theorem query_iter_503 (responses : Nat → HttpResponse) (w : Nat) (et : Nat → Nat) :
    ∀ is : List Nat,
      (∀ i ∈ is, (responses i).status_code = 503 ∧ (responses i).json_ok = true ∧
        (responses i).estimated_time = some (et i)) →
      query_api_iter responses w is = ⟨ApiOutcome.failure, is.length, is.map et⟩ := by
  intro is
  induction is with
  | nil => intro _; rfl
  | cons i rest ih =>
    intro h
    obtain ⟨hi1, hi2, hi3⟩ := h i (by simp)
    have hrest := ih (fun j hj => h j (List.mem_cons_of_mem _ hj))
    have h200 : (responses i).status_code ≠ 200 := by
      rw [hi1]; decide
    unfold query_api_iter
    simp [h200, hi1, hi2, hi3, hrest]

theorem query_iter_no_exn (responses : Nat → HttpResponse) (w : Nat) :
    ∀ is : List Nat,
      (∀ i ∈ is, (responses i).status_code = 503 → (responses i).json_ok = true) →
      (query_api_iter responses w is).result ≠ ApiOutcome.exn := by
  intro is
  induction is with
  | nil => intro _; simp [query_api_iter]
  | cons i rest ih =>
    intro h
    have hrest := ih (fun j hj => h j (List.mem_cons_of_mem _ hj))
    unfold query_api_iter
    by_cases h200 : (responses i).status_code = 200
    · simp [h200]
    · by_cases h503 : (responses i).status_code = 503
      · simp [h200, h503, h i (by simp) h503, hrest]
      · simp [h200, h503, hrest]

theorem query_iter_success (responses : Nat → HttpResponse) (w : Nat) :
    ∀ (is : List Nat) (r : HttpResponse),
      (query_api_iter responses w is).result = ApiOutcome.success r →
      ∃ i ∈ is, (responses i).status_code = 200 ∧ r = responses i := by
  intro is
  induction is with
  | nil => intro r h; simp [query_api_iter] at h
  | cons i rest ih =>
    intro r h
    unfold query_api_iter at h
    by_cases h200 : (responses i).status_code = 200
    · simp [h200] at h
      exact ⟨i, by simp, h200, h.symm⟩
    · by_cases h503 : (responses i).status_code = 503
      · by_cases hok : (responses i).json_ok
        · simp [h200, h503, hok] at h
          obtain ⟨j, hj, hj2⟩ := ih r h
          exact ⟨j, List.mem_cons_of_mem _ hj, hj2⟩
        · simp [h200, h503, hok] at h
      · simp [h200, h503] at h
        obtain ⟨j, hj, hj2⟩ := ih r h
        exact ⟨j, List.mem_cons_of_mem _ hj, hj2⟩

theorem buildArticles_length (env : Env) :
    ∀ (ts : List PyStr) (i : Nat) (l : List ArticleDict),
      buildArticles env ts i = Except.ok l → l.length ≤ ts.length := by
  intro ts
  induction ts with
  | nil =>
    intro i l h
    simp only [buildArticles, Except.ok.injEq] at h
    subst h
    simp
  | cons t rest ih =>
    intro i l h
    cases hg : generate_article_content t (env.contentResp i) with
    | error e => simp [buildArticles, hg] at h
    | ok od =>
      cases od with
      | none =>
        simp only [buildArticles, hg] at h
        exact le_trans (ih _ _ h) (by simp)
      | some d =>
        by_cases hne : dictNonEmpty d = true
        · cases ht : d.title with
          | none =>
            simp only [buildArticles, hg, hne, ht, if_true] at h
            exact le_trans (ih _ _ h) (by simp)
          | some ttl =>
            cases hi : generate_article_image ttl (env.imageResp i) with
            | error e => simp [buildArticles, hg, hne, ht, hi] at h
            | ok url =>
              cases hb : buildArticles env rest (i + 1) with
              | error e => simp [buildArticles, hg, hne, ht, hi, hb] at h
              | ok tail =>
                simp only [buildArticles, hg, hne, ht, hi, hb, if_true,
                  Except.ok.injEq] at h
                subst h
                have := ih _ _ hb
                simp only [List.length_cons]
                omega
        · simp only [buildArticles, hg, hne] at h
          exact le_trans (ih _ _ h) (by simp)

theorem buildArticles_mem (env : Env) :
    ∀ (ts : List PyStr) (i : Nat) (l : List ArticleDict),
      buildArticles env ts i = Except.ok l →
      ∀ a ∈ l, a.title.isSome = true ∧ a.image_url.isSome = true := by
  intro ts
  induction ts with
  | nil =>
    intro i l h a ha
    simp only [buildArticles, Except.ok.injEq] at h
    subst h
    simp at ha
  | cons t rest ih =>
    intro i l h a ha
    cases hg : generate_article_content t (env.contentResp i) with
    | error e => simp [buildArticles, hg] at h
    | ok od =>
      cases od with
      | none =>
        simp only [buildArticles, hg] at h
        exact ih _ _ h a ha
      | some d =>
        by_cases hne : dictNonEmpty d = true
        · cases ht : d.title with
          | none =>
            simp only [buildArticles, hg, hne, ht, if_true] at h
            exact ih _ _ h a ha
          | some ttl =>
            cases hi : generate_article_image ttl (env.imageResp i) with
            | error e => simp [buildArticles, hg, hne, ht, hi] at h
            | ok url =>
              cases hb : buildArticles env rest (i + 1) with
              | error e => simp [buildArticles, hg, hne, ht, hi, hb] at h
              | ok tail =>
                simp only [buildArticles, hg, hne, ht, hi, hb, if_true,
                  Except.ok.injEq] at h
                subst h
                rcases List.mem_cons.mp ha with h' | h'
                · subst h'
                  constructor
                  · simp [ht]
                  · simp
                · exact ih _ _ hb a h'
        · simp only [buildArticles, hg, hne] at h
          exact ih _ _ h a ha

/-- C1 (counterexample): when every attempt is answered by a 503 whose body
is not valid JSON, no attempt returns status 200, yet `query_api` does not
return the failure signal `None`: the `response.json()` call on the 503
body raises and the exception propagates out of `query_api` during the
first attempt.  This refutes the claim that, whenever no attempt returns
200, `query_api` returns `None` and no exception propagates. -/
theorem c1_counterexample :
    (resp503BadBody.status_code = 503 ∧ resp503BadBody.status_code ≠ 200) ∧
    (query_api (fun _ => resp503BadBody) 3 10).result = ApiOutcome.exn ∧
    (query_api (fun _ => resp503BadBody) 3 10).result ≠ ApiOutcome.failure := by
  exact ⟨⟨rfl, by decide⟩, rfl, by decide⟩

/-- C1 (amended): for every endpoint/payload (abstracted by the response
environment), if none of the up-to-`retries` HTTP attempts returns status
200 and additionally every 503 response among them carries a parseable
JSON body (so `response.json()` cannot raise), then `query_api` returns
the failure signal `None` and no exception propagates to the caller. -/
theorem c1_amended (responses : Nat → HttpResponse) (retries initial_wait : Nat)
    (h200 : ∀ i < retries, (responses i).status_code ≠ 200)
    (hjson : ∀ i < retries, (responses i).status_code = 503 →
      (responses i).json_ok = true) :
    (query_api responses retries initial_wait).result = ApiOutcome.failure := by
  unfold query_api
  exact query_iter_failure responses initial_wait (List.range retries)
    (fun i hi => h200 i (List.mem_range.mp hi))
    (fun i hi => hjson i (List.mem_range.mp hi))

/-- C1 witness: three 404 responses in a row make `query_api` return the
failure signal. -/
theorem c1_witness :
    (∀ i < 3, ((fun _ => resp404) i : HttpResponse).status_code ≠ 200) ∧
    (query_api (fun _ => resp404) 3 10).result = ApiOutcome.failure := by
  exact ⟨by decide, c1_amended (fun _ => resp404) 3 10 (by decide) (by decide)⟩

/-- C4: if every HTTP attempt returns status 503 with an `estimated_time`
field in its JSON body, `query_api` sleeps exactly that duration after
each attempt (in order) and returns the failure signal after exactly
`retries` attempts, issuing no further requests (`requests = retries`). -/
theorem c4_sleeps (responses : Nat → HttpResponse) (retries initial_wait : Nat)
    (et : Nat → Nat)
    (h : ∀ i < retries, (responses i).status_code = 503 ∧
      (responses i).json_ok = true ∧ (responses i).estimated_time = some (et i)) :
    query_api responses retries initial_wait =
      ⟨ApiOutcome.failure, retries, (List.range retries).map et⟩ := by
  unfold query_api
  rw [query_iter_503 responses initial_wait et (List.range retries)
    (fun i hi => h i (List.mem_range.mp hi))]
  simp

/-- C4 witness: three 503 responses with `estimated_time = 7` produce
exactly three requests, three 7-second sleeps, and the failure signal. -/
theorem c4_witness :
    (∀ i < 3, ((fun _ => resp503Est7) i : HttpResponse).status_code = 503 ∧
      ((fun _ => resp503Est7) i : HttpResponse).json_ok = true ∧
      ((fun _ => resp503Est7) i : HttpResponse).estimated_time = some 7) ∧
    query_api (fun _ => resp503Est7) 3 10 = ⟨ApiOutcome.failure, 3, [7, 7, 7]⟩ := by
  refine ⟨by decide, ?_⟩
  have h := c4_sleeps (fun _ => resp503Est7) 3 10 (fun _ => 7) (by decide)
  simpa using h

/-- C7: whenever the topics request succeeds and the response yields a
generated text, `get_trending_topics` returns — without raising — exactly
the list the spec describes: the cleaned text split on semicolons, each
entry trimmed, empty entries discarded; and when the generated text has no
semicolon at all that list is empty or a single element. -/
theorem c7_topics (responses : Nat → HttpResponse) (r : HttpResponse)
    (txt clean : PyStr)
    (hq : (query_api responses 3 10).result = ApiOutcome.success r)
    (ht : r.generated_text = some txt)
    (hc : clean = pyStrip (pyReplace topics_prompt [] txt)) :
    get_trending_topics responses = Except.ok (some (specTopicsSplit clean)) ∧
    ((∀ ch ∈ txt, ch ≠ ';') →
      specTopicsSplit clean = [] ∨ ∃ s, specTopicsSplit clean = [s]) := by
  constructor
  · simp only [get_trending_topics, hq, ht]
    rw [topics_filterMap_eq, hc]
    rfl
  · intro hsemi
    have hclean : ∀ ch ∈ clean, ch ≠ ';' := by
      rw [hc]
      exact fun ch hch => hsemi ch (mem_of_mem_pyReplace_empty (mem_of_mem_pyStrip hch))
    unfold specTopicsSplit
    rw [pySplit_no_sep ';' clean hclean]
    by_cases h : pyStrip clean = []
    · left
      simp [h]
    · right
      exact ⟨pyStrip clean, by simp [h]⟩

/-- C7 witness: generated text `"A;B;C"` yields the three-topic list. -/
theorem c7_witness :
    get_trending_topics (fun _ => respTopicsABC) =
      Except.ok (some (specTopicsSplit "A;B;C".toList)) := by
  have h := c7_topics (fun _ => respTopicsABC) respTopicsABC "A;B;C".toList
    "A;B;C".toList rfl rfl (by decide)
  exact h.1

/-- C5: (a) any model output with `TITULO:`, `CONTEUDO:` and
`METADESCRIPTION:` labeled lines parses to a dict with all three of
`title`, `content` and `meta` populated; (b) on the canonical labeled
shape, the `CONTEUDO:` line seeds `content` and each following non-blank
unlabeled line is appended after an embedded newline, while `title` and
`meta` hold the stripped label remainders. -/
theorem c5_three_fields (lines : List PyStr) (t c m : PyStr) (cs : List PyStr)
    (h1 : ∃ l ∈ lines, tituloLbl.isPrefixOf l = true)
    (h2 : ∃ l ∈ lines, conteudoLbl.isPrefixOf l = true)
    (h3 : ∃ l ∈ lines, metaLbl.isPrefixOf l = true)
    (hT : hasOcc tituloLbl t = false) (hC : hasOcc conteudoLbl c = false)
    (hM : hasOcc metaLbl m = false)
    (hcs : ∀ l ∈ cs, tituloLbl.isPrefixOf l = false ∧
      conteudoLbl.isPrefixOf l = false ∧ metaLbl.isPrefixOf l = false ∧
      pyStrip l ≠ []) :
    ((parseLines lines).1.title.isSome = true ∧
     (parseLines lines).1.content.isSome = true ∧
     (parseLines lines).1.meta.isSome = true) ∧
    ((parseLines ((tituloLbl ++ t) :: (conteudoLbl ++ c) ::
        (cs ++ [metaLbl ++ m]))).1.title = some (pyStrip t) ∧
     (parseLines ((tituloLbl ++ t) :: (conteudoLbl ++ c) ::
        (cs ++ [metaLbl ++ m]))).1.content =
       some (pyStrip c ++ (cs.map fun l => '\n' :: pyStrip l).flatten) ∧
     (parseLines ((tituloLbl ++ t) :: (conteudoLbl ++ c) ::
        (cs ++ [metaLbl ++ m]))).1.meta = some (pyStrip m) ∧
     (parseLines ((tituloLbl ++ t) :: (conteudoLbl ++ c) ::
        (cs ++ [metaLbl ++ m]))).1.image_url = none) := by
  constructor
  · exact ⟨foldl_parse_sets_title lines _ h1, foldl_parse_sets_content lines _ h2,
      foldl_parse_sets_meta lines _ h3⟩
  · unfold parseLines
    simp only [List.foldl_cons]
    rw [parseStep_titulo_eq (isPrefixOf_append_self tituloLbl t),
      pyReplace_append_self tituloLbl [] t (by decide)]
    simp only [List.nil_append]
    rw [pyReplace_no_occ tituloLbl [] t hT,
      parseStep_conteudo_eq (isPrefixOf_append_self conteudoLbl c),
      pyReplace_append_self conteudoLbl [] c (by decide)]
    simp only [List.nil_append]
    rw [pyReplace_no_occ conteudoLbl [] c hC, List.foldl_append]
    simp only [List.foldl_cons, List.foldl_nil]
    rw [parseStep_meta_eq (isPrefixOf_append_self metaLbl m),
      pyReplace_append_self metaLbl [] m (by decide)]
    simp only [List.nil_append]
    rw [pyReplace_no_occ metaLbl [] m hM]
    have hacc := foldl_parse_content_accum cs
      (({ { emptyDict with title := some (pyStrip t) } with
          content := some (pyStrip c) }, some FieldKey.content))
      (pyStrip c) rfl rfl hcs
    exact ⟨hacc.1, hacc.2.2.2.1, rfl, hacc.2.2.1⟩

/-- C5 witness: the canonical three-label shape with one continuation
line, fully concrete. -/
theorem c5_witness :
    ((parseLines ((tituloLbl ++ " T1".toList) :: (conteudoLbl ++ " B1".toList) ::
        (["b2".toList] ++ [metaLbl ++ " M1".toList]))).1.title.isSome = true ∧
     (parseLines ((tituloLbl ++ " T1".toList) :: (conteudoLbl ++ " B1".toList) ::
        (["b2".toList] ++ [metaLbl ++ " M1".toList]))).1.content.isSome = true ∧
     (parseLines ((tituloLbl ++ " T1".toList) :: (conteudoLbl ++ " B1".toList) ::
        (["b2".toList] ++ [metaLbl ++ " M1".toList]))).1.meta.isSome = true) ∧
    ((parseLines ((tituloLbl ++ " T1".toList) :: (conteudoLbl ++ " B1".toList) ::
        (["b2".toList] ++ [metaLbl ++ " M1".toList]))).1.title =
          some (pyStrip " T1".toList) ∧
     (parseLines ((tituloLbl ++ " T1".toList) :: (conteudoLbl ++ " B1".toList) ::
        (["b2".toList] ++ [metaLbl ++ " M1".toList]))).1.content =
          some (pyStrip " B1".toList ++
            ((["b2".toList]).map fun l => '\n' :: pyStrip l).flatten) ∧
     (parseLines ((tituloLbl ++ " T1".toList) :: (conteudoLbl ++ " B1".toList) ::
        (["b2".toList] ++ [metaLbl ++ " M1".toList]))).1.meta =
          some (pyStrip " M1".toList) ∧
     (parseLines ((tituloLbl ++ " T1".toList) :: (conteudoLbl ++ " B1".toList) ::
        (["b2".toList] ++ [metaLbl ++ " M1".toList]))).1.image_url = none) := by
  exact c5_three_fields
    ((tituloLbl ++ " T1".toList) :: (conteudoLbl ++ " B1".toList) ::
      (["b2".toList] ++ [metaLbl ++ " M1".toList]))
    " T1".toList " B1".toList " M1".toList ["b2".toList]
    (by decide) (by decide) (by decide) (by decide) (by decide) (by decide) (by decide)

/-- C6 (counterexample): after the line `TITULO: A`, the subsequent
non-empty unlabeled line `B` is NOT appended to the currently active field
(`title` stays `A`, not `A\nB`), and a label line is seeded by removing
EVERY occurrence of the label, not just the prefix (`TITULO: xTITULO:y`
seeds `xy`).  This refutes the claim that every subsequent non-empty
unlabeled line is appended to whichever field is currently active. -/
theorem c6_counterexample :
    (parseLines ["TITULO: A".toList, "B".toList]).1 =
      ⟨some "A".toList, none, none, none⟩ ∧
    (parseLines ["TITULO: A".toList, "B".toList]).1.title ≠ some "A\nB".toList ∧
    (parseLines ["TITULO: xTITULO:y".toList]).1.title = some "xy".toList := by
  exact ⟨by decide, by decide, by decide⟩

/-- C6 (amended): a line matching a known label prefix starts a new field
whose value is the line with every occurrence of that label removed and
the result stripped; a subsequent non-blank line matching no label prefix
is appended (after a newline) only when the currently active field is
`content`; otherwise it is ignored. -/
theorem c6_amended (p : List PyStr) (l : PyStr) :
    (tituloLbl.isPrefixOf l = true →
      parseLines (p ++ [l]) =
        ({ (parseLines p).1 with title := some (pyStrip (pyReplace tituloLbl [] l)) },
          some FieldKey.title)) ∧
    (conteudoLbl.isPrefixOf l = true →
      parseLines (p ++ [l]) =
        ({ (parseLines p).1 with
            content := some (pyStrip (pyReplace conteudoLbl [] l)) },
          some FieldKey.content)) ∧
    (metaLbl.isPrefixOf l = true →
      parseLines (p ++ [l]) =
        ({ (parseLines p).1 with meta := some (pyStrip (pyReplace metaLbl [] l)) },
          some FieldKey.meta)) ∧
    (tituloLbl.isPrefixOf l = false → conteudoLbl.isPrefixOf l = false →
      metaLbl.isPrefixOf l = false → (parseLines p).2 = some FieldKey.content →
      pyStrip l ≠ [] →
      parseLines (p ++ [l]) =
        ({ (parseLines p).1 with
            content := some (((parseLines p).1.content.getD []) ++ '\n' :: pyStrip l) },
          (parseLines p).2)) ∧
    (tituloLbl.isPrefixOf l = false → conteudoLbl.isPrefixOf l = false →
      metaLbl.isPrefixOf l = false →
      ¬((parseLines p).2 = some FieldKey.content ∧ pyStrip l ≠ []) →
      parseLines (p ++ [l]) = parseLines p) := by
  unfold parseLines
  rw [List.foldl_append]
  simp only [List.foldl_cons, List.foldl_nil]
  refine ⟨?_, ?_, ?_, ?_, ?_⟩
  · intro hp
    exact parseStep_titulo_eq hp
  · intro hp
    exact parseStep_conteudo_eq hp
  · intro hp
    exact parseStep_meta_eq hp
  · intro h1 h2 h3 hcur hne
    exact parseStep_cont_eq h1 h2 h3 hcur hne
  · intro h1 h2 h3 h4
    exact parseStep_skip_eq h1 h2 h3 h4

/-- C6 witness: after `TITULO: A` the active field is `title`, so the
unlabeled line `B` leaves the parser state untouched. -/
theorem c6_witness :
    parseLines (["TITULO: A".toList] ++ ["B".toList]) =
      parseLines ["TITULO: A".toList] := by
  have h := c6_amended ["TITULO: A".toList] "B".toList
  exact h.2.2.2.2 (by decide) (by decide) (by decide) (by decide)

/-- C2 (counterexample): for the model output `TITULO: A` — which has no
`CONTEUDO:` label — `generate_article_content` returns a dict holding only
a title (no `content` key), and `main` treats it as a success: the partial
article is accepted and appended with its image URL, refuting the claim
that generation succeeds only when both `title` and `content` were
populated and that a missing `CONTEUDO:` label yields a failure signal. -/
theorem c2_counterexample :
    generate_article_content "X".toList (fun _ => respTitleOnly) =
      Except.ok (some ⟨some "A".toList, none, none, none⟩) ∧
    buildArticles envTitleOnly ["X".toList] 0 =
      Except.ok [⟨some "A".toList, none, none, some placeholder_url⟩] := by
  exact ⟨rfl, rfl⟩

/-- C2 (amended): an input with no `CONTEUDO:`-labeled line parses to a
dict with no `content` key, and `main` requires only the `title` key for
an article to count as a success — every article the loop keeps has a
title, whether or not it has content. -/
theorem c2_amended (lines : List PyStr)
    (h : ∀ l ∈ lines, conteudoLbl.isPrefixOf l = false) :
    (parseLines lines).1.content = none ∧
    (∀ (env : Env) (ts : List PyStr) (i : Nat) (l : List ArticleDict),
      buildArticles env ts i = Except.ok l → ∀ a ∈ l, a.title.isSome = true) := by
  constructor
  · exact foldl_parse_content_none lines (emptyDict, none) h rfl (by simp)
  · intro env ts i l hb a ha
    exact (buildArticles_mem env ts i l hb a ha).1

/-- C2 witness: the single line `TITULO: A` parses with no content key,
and the article `envTitleOnly` accepts has a title. -/
theorem c2_witness :
    (parseLines ["TITULO: A".toList]).1.content = none ∧
    (∀ a ∈ [(⟨some "A".toList, none, none, some placeholder_url⟩ : ArticleDict)],
      a.title.isSome = true) := by
  have h := c2_amended ["TITULO: A".toList] (by decide)
  exact ⟨h.1, h.2 envTitleOnly ["X".toList] 0 _ rfl⟩

/-- C8: if the template file is missing, the run writes no output file
(the prior output file, if any, is left unchanged), whatever the rest of
the environment does. -/
theorem c8_no_template (env : Env) (h : env.template = none) :
    writtenOf (mainRun env) = none := by
  cases hg : get_trending_topics env.topicsResp with
  | error e => simp [writtenOf, mainRun, hg]
  | ok ot =>
    cases ot with
    | none => simp [writtenOf, mainRun, hg]
    | some topics =>
      by_cases htop : topics = []
      · simp [writtenOf, mainRun, hg, htop]
      · cases hb : buildArticles env (topics.take ARTICLES_TO_GENERATE) 0 with
        | error e => simp [writtenOf, mainRun, hg, htop, hb]
        | ok articles =>
          by_cases ha : articles = []
          · simp [writtenOf, mainRun, hg, htop, hb, ha]
          · simp [writtenOf, mainRun, hg, htop, hb, ha, h]

/-- C8 witness: a run with articles but no template file writes nothing. -/
theorem c8_witness :
    envNoTemplate.template = none ∧ writtenOf (mainRun envNoTemplate) = none := by
  exact ⟨rfl, c8_no_template envNoTemplate rfl⟩

/-- C9 (counterexample): a 503 response whose body is not valid JSON makes
the retry helper raise, and `generate_article_image` does not catch it:
the exception escapes, refuting the claim that this function never fails
outward for every prompt. -/
theorem c9_counterexample :
    generate_article_image "T".toList (fun _ => resp503BadBody) =
      Except.error () := by
  rfl

/-- C9 (amended): provided every 503 among the attempts carries a
parseable JSON body (so the retry helper cannot raise),
`generate_article_image` never fails outward: it returns either the
base64 data URI built from the raw body of the succeeding response, or
the fixed placeholder image URL when the retry helper reports failure. -/
theorem c9_amended (prompt : PyStr) (responses : Nat → HttpResponse)
    (hjson : ∀ i < 3, (responses i).status_code = 503 →
      (responses i).json_ok = true) :
    ∃ s, generate_article_image prompt responses = Except.ok s ∧
      (s = placeholder_url ∨
        ∃ i < 3, (responses i).status_code = 200 ∧
          s = dataUriPrefix ++ base64Encode (responses i).content) := by
  cases hq : (query_api responses 3 10).result with
  | exn =>
    exact absurd hq (query_iter_no_exn responses 10 (List.range 3)
      (fun i hi => hjson i (List.mem_range.mp hi)))
  | failure =>
    refine ⟨placeholder_url, ?_, Or.inl rfl⟩
    unfold generate_article_image
    rw [hq]
  | success r =>
    obtain ⟨i, hi, h200, hr⟩ := query_iter_success responses 10 (List.range 3) r hq
    refine ⟨dataUriPrefix ++ base64Encode r.content, ?_,
      Or.inr ⟨i, List.mem_range.mp hi, h200, by rw [hr]⟩⟩
    unfold generate_article_image
    rw [hq]

/-- C9 witness: with an immediate 200 image response the function returns
the data URI. -/
theorem c9_witness :
    (∀ i < 3, ((fun _ => respImageBytes) i : HttpResponse).status_code = 503 →
      ((fun _ => respImageBytes) i : HttpResponse).json_ok = true) ∧
    ∃ s, generate_article_image "T".toList (fun _ => respImageBytes) =
        Except.ok s ∧
      (s = placeholder_url ∨
        ∃ i < 3, ((fun _ => respImageBytes) i : HttpResponse).status_code = 200 ∧
          s = dataUriPrefix ++
            base64Encode ((fun _ => respImageBytes) i : HttpResponse).content) := by
  exact ⟨by decide, c9_amended "T".toList (fun _ => respImageBytes) (by decide)⟩

theorem mainRun_ok_articles (env : Env) (r : MainResult)
    (h : mainRun env = Except.ok r) :
    r.articles = [] ∨ ∃ topics : List PyStr,
      buildArticles env (topics.take ARTICLES_TO_GENERATE) 0 =
        Except.ok r.articles := by
  cases hg : get_trending_topics env.topicsResp with
  | error e => simp [mainRun, hg] at h
  | ok ot =>
    cases ot with
    | none =>
      simp only [mainRun, hg, Except.ok.injEq] at h
      subst h
      exact Or.inl rfl
    | some topics =>
      by_cases htop : topics = []
      · simp only [mainRun, hg, htop, if_true, Except.ok.injEq] at h
        subst h
        exact Or.inl rfl
      · cases hb : buildArticles env (topics.take ARTICLES_TO_GENERATE) 0 with
        | error e => simp [mainRun, hg, htop, hb] at h
        | ok articles =>
          simp only [mainRun, hg, htop, hb, if_false] at h
          by_cases ha : articles = []
          · rw [if_pos ha] at h
            simp only [Except.ok.injEq] at h
            subst h
            exact Or.inr ⟨topics, hb⟩
          · rw [if_neg ha] at h
            cases htm : env.template with
            | none =>
              simp only [htm, Except.ok.injEq] at h
              subst h
              exact Or.inr ⟨topics, hb⟩
            | some tmpl =>
              simp only [htm, Except.ok.injEq] at h
              subst h
              exact Or.inr ⟨topics, hb⟩

/-- C10: (a) however the run goes, `articles_data` never exceeds
`ARTICLES_TO_GENERATE` entries and every article in it has both a `title`
and an `image_url` key; (b) `content` and `meta` may genuinely be absent
from an accepted article (rendering later substitutes empty defaults), as
witnessed by a run whose accepted articles carry neither. -/
theorem c10_invariants :
    (∀ (env : Env) (r : MainResult), mainRun env = Except.ok r →
      r.articles.length ≤ ARTICLES_TO_GENERATE ∧
      ∀ a ∈ r.articles, a.title.isSome = true ∧ a.image_url.isSome = true) ∧
    (∃ (env : Env) (r : MainResult) (a : ArticleDict),
      mainRun env = Except.ok r ∧ a ∈ r.articles ∧
      a.content = none ∧ a.meta = none) := by
  constructor
  · intro env r h
    rcases mainRun_ok_articles env r h with h0 | ⟨topics, hb⟩
    · rw [h0]
      exact ⟨by simp [ARTICLES_TO_GENERATE], by simp⟩
    · exact ⟨le_trans (buildArticles_length env _ _ _ hb) (List.length_take_le _ _),
        buildArticles_mem env _ _ _ hb⟩
  · exact ⟨envC10, ⟨[artC10, artC10, artC10], none⟩, artC10, rfl, by simp, rfl, rfl⟩

/-- C10 witness: a concrete successful run, bounded by
`ARTICLES_TO_GENERATE`. -/
theorem c10_witness :
    mainRun envC10 = Except.ok ⟨[artC10, artC10, artC10], none⟩ ∧
    ([artC10, artC10, artC10] : List ArticleDict).length ≤ ARTICLES_TO_GENERATE := by
  have h := c10_invariants.1 envC10 ⟨[artC10, artC10, artC10], none⟩ rfl
  exact ⟨rfl, h.1⟩

/-- C3: when topic extraction yields exactly 3 topics and, for each of
them, article generation succeeds with a titled dict and image generation
succeeds, the run produces exactly 3 articles and the written output file
is the template with the placeholder replaced by the concatenation of the
3 per-article fragments, in topic order. -/
theorem c3_three_articles (env : Env) (t1 t2 t3 : PyStr)
    (d1 d2 d3 : ArticleDict) (w1 w2 w3 u1 u2 u3 tmpl : PyStr)
    (htop : get_trending_topics env.topicsResp = Except.ok (some [t1, t2, t3]))
    (hc1 : generate_article_content t1 (env.contentResp 0) = Except.ok (some d1))
    (hc2 : generate_article_content t2 (env.contentResp 1) = Except.ok (some d2))
    (hc3 : generate_article_content t3 (env.contentResp 2) = Except.ok (some d3))
    (ht1 : d1.title = some w1) (ht2 : d2.title = some w2) (ht3 : d3.title = some w3)
    (hi1 : generate_article_image w1 (env.imageResp 0) = Except.ok u1)
    (hi2 : generate_article_image w2 (env.imageResp 1) = Except.ok u2)
    (hi3 : generate_article_image w3 (env.imageResp 2) = Except.ok u3)
    (htm : env.template = some tmpl) :
    mainRun env = Except.ok
      ⟨[{ d1 with image_url := some u1 }, { d2 with image_url := some u2 },
        { d3 with image_url := some u3 }],
        some (pyReplace PLACEHOLDER
          ([renderFrag { d1 with image_url := some u1 },
            renderFrag { d2 with image_url := some u2 },
            renderFrag { d3 with image_url := some u3 }]).flatten tmpl)⟩ ∧
    (articlesOf (mainRun env)).length = 3 := by
  have hb : buildArticles env [t1, t2, t3] 0 =
      Except.ok [{ d1 with image_url := some u1 }, { d2 with image_url := some u2 },
        { d3 with image_url := some u3 }] := by
    simp [buildArticles, hc1, hc2, hc3, dictNonEmpty, ht1, ht2, ht3, hi1, hi2, hi3]
  have hm : mainRun env = Except.ok
      ⟨[{ d1 with image_url := some u1 }, { d2 with image_url := some u2 },
        { d3 with image_url := some u3 }],
        some (pyReplace PLACEHOLDER
          ([renderFrag { d1 with image_url := some u1 },
            renderFrag { d2 with image_url := some u2 },
            renderFrag { d3 with image_url := some u3 }]).flatten tmpl)⟩ := by
    simp [mainRun, htop, ARTICLES_TO_GENERATE, hb, htm]
  exact ⟨hm, by rw [hm]; simp [articlesOf]⟩

/-- C3 witness: a fully successful concrete run with topics `A;B;C`. -/
theorem c3_witness :
    mainRun envHappy = Except.ok
      ⟨[{ dHappy with image_url := some imgSmallUri },
        { dHappy with image_url := some imgSmallUri },
        { dHappy with image_url := some imgSmallUri }],
        some (pyReplace PLACEHOLDER
          ([renderFrag { dHappy with image_url := some imgSmallUri },
            renderFrag { dHappy with image_url := some imgSmallUri },
            renderFrag { dHappy with image_url := some imgSmallUri }]).flatten
          tmplSmall)⟩ ∧
    (articlesOf (mainRun envHappy)).length = 3 := by
  exact c3_three_articles envHappy "A".toList "B".toList "C".toList
    dHappy dHappy dHappy "T1".toList "T1".toList "T1".toList
    imgSmallUri imgSmallUri imgSmallUri tmplSmall
    rfl rfl rfl rfl rfl rfl rfl rfl rfl rfl rfl

end Noticia
